import Mathlib

/-!
Verification development for the background-blur pipeline of the Cloudy
repository (`cloudy/src/main/cpp/BackgroundBlur.cpp`).

Modelling conventions:
* Raw pixel buffers (`uint8_t*`) are modelled as total functions `ℕ → ℕ`
  from byte offsets to byte values; writing a region of a buffer produces
  a new function that agrees with the old one outside the written region.
* Nullable pointers are modelled with `Option`.
* `float` arithmetic is modelled by exact rational arithmetic (`ℚ`);
  `static_cast` of a nonnegative float to an integer type is truncation
  toward zero (`truncQ`).
* The byte loops `for (y) for (x) for (c)` writing `dst[(y*w+x)*4+c]`
  are modelled per byte offset `i`, with `y = i / (w*4)`, `x = (i/4) % w`,
  `c = i % 4`; this is the inverse of the index computation in the source.
* The Gaussian-blur collaborator `RenderScriptToolkit::blur` is defined in
  a separate translation unit (declared in `RenderScriptToolkit.h`); the
  pipeline is parameterised over it as `blurFn : Buf → ℕ → ℕ → ℤ → Buf`
  (input buffer, width, height, radius ↦ output buffer).
-/

namespace CloudyBlur

/-- A raw byte buffer: byte offset ↦ byte value. -/
abbrev Buf := ℕ → ℕ

/-- Models a C++ `static_cast` from a floating-point value to an integer
type: truncation toward zero. -/
def truncQ (q : ℚ) : ℤ := if 0 ≤ q then ⌊q⌋ else ⌈q⌉

/-- The sRGB gamma lookup tables (`class GammaLUT` in the source).  The
tables are built once from transcendental functions (`pow 2.4`), so their
numeric content is kept abstract here: `srgbToLinear` models the
`srgbToLinear[256]` table and `toSrgb` models the composite
`linearToSrgb[clamp(linear*4095+0.5, 0, 4095)]` lookup (`GammaLUT::toSrgb`).
No claim in this development depends on the tables' numeric content. -/
structure GammaLUT where
  srgbToLinear : ℕ → ℚ
  toSrgb : ℚ → ℕ

/-- Models `static_cast<uint8_t>(std::clamp(value, 0.0f, 255.0f))`:
clamp to [0,255] and then truncate toward zero. -/
def clampByte (v : ℚ) : ℕ := (truncQ (min (max v 0) 255)).toNat

/-- Models `std::min(static_cast<size_t>(f), limit - 1)`: the first
bilinear neighbor index used by both resampling loops. -/
def srcIdx0 (f : ℚ) (limit : ℕ) : ℕ := min (truncQ f).toNat (limit - 1)

/-- Models `std::min(srcIdx0 + 1, limit - 1)`: the second bilinear
neighbor index used by both resampling loops. -/
def srcIdx1 (f : ℚ) (limit : ℕ) : ℕ := min (srcIdx0 f limit + 1) (limit - 1)

/-- Bilinear interpolation as written in the source: two horizontal
lerps (`top`, `bottom`) followed by one vertical lerp. -/
def bilinear (p00 p10 p01 p11 xFrac yFrac : ℚ) : ℚ :=
  let top := p00 + (p10 - p00) * xFrac
  let bottom := p01 + (p11 - p01) * xFrac
  top + (bottom - top) * yFrac

/-- One destination byte of the (identical) per-pixel bodies of
`cropAndScaleDown` and `scaleUp`: continuous source coordinates
`off + x * scale`, neighbor indices clamped to the source bounds,
gamma-correct bilinear interpolation for the RGB channels (`c < 3`),
plain bilinear interpolation with clamp-and-truncate for alpha (`c = 3`).
`cropAndScaleDown` passes the crop offsets; `scaleUp` passes zero. -/
def resampleByte (lut : GammaLUT) (src : Buf) (srcW srcH offX offY : ℕ)
    (scaleX scaleY : ℚ) (x y c : ℕ) : ℕ :=
  let srcYf : ℚ := offY + y * scaleY
  let srcY0 : ℕ := srcIdx0 srcYf srcH
  let srcY1 : ℕ := srcIdx1 srcYf srcH
  let yFrac : ℚ := srcYf - srcY0
  let srcXf : ℚ := offX + x * scaleX
  let srcX0 : ℕ := srcIdx0 srcXf srcW
  let srcX1 : ℕ := srcIdx1 srcXf srcW
  let xFrac : ℚ := srcXf - srcX0
  if c = 3 then
    clampByte (bilinear
      ((src ((srcY0 * srcW + srcX0) * 4 + 3) : ℕ) : ℚ)
      ((src ((srcY0 * srcW + srcX1) * 4 + 3) : ℕ) : ℚ)
      ((src ((srcY1 * srcW + srcX0) * 4 + 3) : ℕ) : ℚ)
      ((src ((srcY1 * srcW + srcX1) * 4 + 3) : ℕ) : ℚ) xFrac yFrac)
  else
    lut.toSrgb (bilinear
      (lut.srgbToLinear (src ((srcY0 * srcW + srcX0) * 4 + c)))
      (lut.srgbToLinear (src ((srcY0 * srcW + srcX1) * 4 + c)))
      (lut.srgbToLinear (src ((srcY1 * srcW + srcX0) * 4 + c)))
      (lut.srgbToLinear (src ((srcY1 * srcW + srcX1) * 4 + c))) xFrac yFrac)

/-- Function `cropAndScaleDown` from the source: crops `(cropX, cropY, cropW, cropH)`
out of `src` and resamples it into the first `dstH * dstW * 4` bytes of
`dst`, with `scaleX = cropWidth / dstWidth`, `scaleY = cropHeight / dstHeight`
and continuous coordinates `cropX + x * scaleX`, `cropY + y * scaleY`.
Bytes of `dst` beyond the written region keep their previous value. -/
def cropAndScaleDown (lut : GammaLUT) (src : Buf)
    (srcW srcH cropX cropY cropW cropH : ℕ) (dst : Buf) (dstW dstH : ℕ) : Buf :=
  fun i =>
    if i < dstH * dstW * 4 then
      resampleByte lut src srcW srcH cropX cropY
        ((cropW : ℚ) / dstW) ((cropH : ℚ) / dstH)
        ((i / 4) % dstW) (i / (dstW * 4)) (i % 4)
    else dst i

/-- Function `scaleUp` from the source: resamples the `srcW × srcH` image into the
first `dstH * dstW * 4` bytes of `dst`, with `scaleX = srcWidth / dstWidth`,
`scaleY = srcHeight / dstHeight` and continuous coordinates `x * scaleX`,
`y * scaleY` (no crop offset).  Bytes of `dst` beyond the written region
keep their previous value. -/
def scaleUp (lut : GammaLUT) (src : Buf) (srcW srcH : ℕ)
    (dst : Buf) (dstW dstH : ℕ) : Buf :=
  fun i =>
    if i < dstH * dstW * 4 then
      resampleByte lut src srcW srcH 0 0
        ((srcW : ℚ) / dstW) ((srcH : ℚ) / dstH)
        ((i / 4) % dstW) (i / (dstW * 4)) (i % 4)
    else dst i

/-- Enum `RenderScriptToolkit::ProgressiveDirection`. -/
inductive ProgressiveDirection
  | NONE
  | TOP_TO_BOTTOM
  | BOTTOM_TO_TOP
  | EDGES
  deriving DecidableEq

open ProgressiveDirection

/-- The per-row mask scalar of `applyProgressiveMask`:
`normalizedY = y / heightDenom` with `heightDenom = height > 1 ? height - 1 : 1`,
the `switch (direction)` on the fade profile, and the final
`std::clamp(alpha, 0.0f, 1.0f)`. -/
def maskAlpha (direction : ProgressiveDirection) (fadeStart fadeEnd : ℚ)
    (height y : ℕ) : ℚ :=
  let heightDenom : ℚ := if height > 1 then ((height - 1 : ℕ) : ℚ) else 1
  let normalizedY : ℚ := (y : ℚ) / heightDenom
  let alpha : ℚ :=
    match direction with
    | NONE => 1
    | TOP_TO_BOTTOM =>
        if normalizedY ≤ fadeStart then 1
        else if normalizedY ≥ fadeEnd then 0
        else
          let range := fadeEnd - fadeStart
          if range > 0 then 1 - (normalizedY - fadeStart) / range else 1
    | BOTTOM_TO_TOP =>
        if normalizedY ≥ fadeStart then 1
        else if normalizedY ≤ fadeEnd then 0
        else
          let range := fadeStart - fadeEnd
          if range > 0 then (normalizedY - fadeEnd) / range else 1
    | EDGES =>
        if normalizedY ≤ fadeStart then
          (if fadeStart > 0 then normalizedY / fadeStart else 1)
        else if normalizedY ≥ fadeEnd then
          (if fadeEnd < 1 then (1 - normalizedY) / (1 - fadeEnd) else 1)
        else 1
  min (max alpha 0) 1

/-- Function `applyProgressiveMask` from the source: early-returns when
`direction == NONE`; otherwise every byte `buffer[(y*width+x)*4 + c]` with
`y < height`, `x < width`, `c < 4` is replaced by
`static_cast<uint8_t>(byte * alpha + 0.5f)` where `alpha` is the row's
mask scalar.  Bytes beyond the masked region keep their previous value. -/
def applyProgressiveMask (buffer : Buf) (width height : ℕ)
    (direction : ProgressiveDirection) (fadeStart fadeEnd : ℚ) : Buf :=
  if direction = NONE then buffer
  else fun i =>
    if i < height * width * 4 then
      (truncQ ((buffer i : ℚ) *
        maskAlpha direction fadeStart fadeEnd height (i / (width * 4)) + 1/2)).toNat
    else buffer i

/-- Models `std::max(static_cast<size_t>(dim * scale), size_t(1))`: a
scaled working dimension of the pipeline. -/
def scaledDim (dim : ℕ) (scale : ℚ) : ℕ :=
  max (truncQ ((dim : ℚ) * scale)).toNat 1

/-- The radius handed to the blur step:
`std::min(std::max(static_cast<int>(radius * scale), 1), 25)`. -/
def scaledRadius (radius : ℤ) (scale : ℚ) : ℤ :=
  min (max (truncQ ((radius : ℤ) * scale : ℚ)) 1) 25

/-- The sizes (in bytes) of the two reusable scratch buffers of
`BackgroundBlurBuffers`. -/
structure BackgroundBlurBuffers where
  scaledInput : ℕ
  blurOutput : ℕ

/-- Method `BackgroundBlurBuffers::ensureCapacity`: each buffer is resized
exactly when its current size is below the requested size (grow-only). -/
def ensureCapacity (b : BackgroundBlurBuffers) (scaledSize blurSize : ℕ) :
    BackgroundBlurBuffers :=
  ⟨if b.scaledInput < scaledSize then scaledSize else b.scaledInput,
   if b.blurOutput < blurSize then blurSize else b.blurOutput⟩

/-- The validation prologue of `RenderScriptToolkit::backgroundBlur`:
`true` exactly when one of the early-return checks fires (the source
returns `false` from the first check that fires; since the checks have no
side effects besides logging, the disjunction is equivalent). -/
def validationFails (src? dst? : Option Buf) (srcW srcH cropX cropY cropW cropH : ℕ)
    (radius : ℤ) (scale : ℚ) (progressiveDir : ProgressiveDirection)
    (fadeStart fadeEnd : ℚ) : Bool :=
  src?.isNone || dst?.isNone ||
  decide (cropX + cropW > srcW) || decide (cropY + cropH > srcH) ||
  decide (radius < 1) || decide (radius > 25) ||
  decide (scale ≤ 0) || decide (scale > 1) ||
  decide (cropW = 0) || decide (cropH = 0) ||
  decide (fadeStart < 0) || decide (fadeStart > 1) ||
  decide (fadeEnd < 0) || decide (fadeEnd > 1) ||
  (decide (progressiveDir = TOP_TO_BOTTOM) && decide (fadeStart ≥ fadeEnd)) ||
  (decide (progressiveDir = BOTTOM_TO_TOP) && decide (fadeEnd ≥ fadeStart)) ||
  (decide (progressiveDir = EDGES) && decide (fadeStart ≥ fadeEnd))

/-- Function `RenderScriptToolkit::backgroundBlur`.  `blurFn` is the external
Gaussian-blur collaborator (input, width, height, radius ↦ output);
`scratch0` is the previous content of the thread-local scratch buffer
written by `cropAndScaleDown`.  Returns the success flag and the final
content of the destination buffer (unchanged `dst?` on failure). -/
def backgroundBlur (lut : GammaLUT) (blurFn : Buf → ℕ → ℕ → ℤ → Buf)
    (scratch0 : Buf) (src? dst? : Option Buf)
    (srcW srcH cropX cropY cropW cropH : ℕ)
    (radius : ℤ) (scale : ℚ) (progressiveDir : ProgressiveDirection)
    (fadeStart fadeEnd : ℚ) : Bool × Option Buf :=
  if validationFails src? dst? srcW srcH cropX cropY cropW cropH radius scale
      progressiveDir fadeStart fadeEnd then
    (false, dst?)
  else
    match src?, dst? with
    | some src, some dst =>
      let scaledWidth := scaledDim cropW scale
      let scaledHeight := scaledDim cropH scale
      let scaledInput := cropAndScaleDown lut src srcW srcH cropX cropY cropW cropH
        scratch0 scaledWidth scaledHeight
      let blurOutput := blurFn scaledInput scaledWidth scaledHeight
        (scaledRadius radius scale)
      let upscaled := scaleUp lut blurOutput scaledWidth scaledHeight dst cropW cropH
      (true, some (applyProgressiveMask upscaled cropW cropH progressiveDir
        fadeStart fadeEnd))
    | _, _ => (false, dst?)

/-! ### Definitions written from the spec's words, for comparison -/

/-- Written from the spec's words (claim C4): the piecewise fade profile,
with `normalizedY = y / max(height-1, 1)`, the three directional profiles,
zero-width ramps defaulting to full opacity, and the result clamped to
[0,1]. -/
def specMaskAlpha (direction : ProgressiveDirection) (fadeStart fadeEnd : ℚ)
    (height y : ℕ) : ℚ :=
  let normalizedY : ℚ := (y : ℚ) / ((max (height - 1) 1 : ℕ) : ℚ)
  let alpha : ℚ :=
    match direction with
    | NONE => 1
    | TOP_TO_BOTTOM =>
        if normalizedY ≤ fadeStart then 1
        else if normalizedY ≥ fadeEnd then 0
        else 1 - (normalizedY - fadeStart) / (fadeEnd - fadeStart)
    | BOTTOM_TO_TOP =>
        if normalizedY ≥ fadeStart then 1
        else if normalizedY ≤ fadeEnd then 0
        else (normalizedY - fadeEnd) / (fadeStart - fadeEnd)
    | EDGES =>
        if normalizedY ≤ fadeStart then
          (if 0 < fadeStart then normalizedY / fadeStart else 1)
        else if normalizedY ≥ fadeEnd then
          (if fadeEnd < 1 then 1 - (normalizedY - fadeEnd) / (1 - fadeEnd) else 1)
        else 1
  min (max alpha 0) 1

/-- Written from the spec's words (claim C5): a scaled working dimension
as `max(1, round(dim * scale))` with round-to-nearest. -/
def specScaledDim (dim : ℕ) (scale : ℚ) : ℕ :=
  max 1 (round ((dim : ℚ) * scale)).toNat

/-- Written from the spec's words (claim C6): the effective blur radius as
`clamp(round(radius * scale), 1, 25)` with round-to-nearest. -/
def specEffectiveRadius (radius : ℤ) (scale : ℚ) : ℤ :=
  min (max (round ((radius : ℚ) * scale)) 1) 25

/-- Written from the claim C1's words: the disjunction of all validation
violations — a null buffer, a crop region not fully inside the source,
a zero crop dimension, radius outside [1,25], scale outside (0,1], a fade
value outside [0,1], or a failed direction-specific ordering constraint
(TopToBottom and Edges require `fadeStart < fadeEnd`, BottomToTop requires
`fadeEnd < fadeStart`). -/
def violatesValidation (src? dst? : Option Buf)
    (srcW srcH cropX cropY cropW cropH : ℕ) (radius : ℤ) (scale : ℚ)
    (progressiveDir : ProgressiveDirection) (fadeStart fadeEnd : ℚ) : Prop :=
  src? = none ∨ dst? = none ∨
  cropX + cropW > srcW ∨ cropY + cropH > srcH ∨
  radius < 1 ∨ radius > 25 ∨
  scale ≤ 0 ∨ scale > 1 ∨
  cropW = 0 ∨ cropH = 0 ∨
  fadeStart < 0 ∨ fadeStart > 1 ∨ fadeEnd < 0 ∨ fadeEnd > 1 ∨
  (progressiveDir = TOP_TO_BOTTOM ∧ fadeStart ≥ fadeEnd) ∨
  (progressiveDir = BOTTOM_TO_TOP ∧ fadeEnd ≥ fadeStart) ∨
  (progressiveDir = EDGES ∧ fadeStart ≥ fadeEnd)

/-- The plain (no gamma transform) bilinear interpolation of the four
neighbors' alpha samples, exactly as the alpha blocks of
`cropAndScaleDown` and `scaleUp` compute it before clamping and
converting to a byte. -/
def alphaSample (src : Buf) (srcW srcH offX offY : ℕ)
    (scaleX scaleY : ℚ) (x y : ℕ) : ℚ :=
  let srcYf : ℚ := offY + y * scaleY
  let srcY0 : ℕ := srcIdx0 srcYf srcH
  let srcY1 : ℕ := srcIdx1 srcYf srcH
  let yFrac : ℚ := srcYf - srcY0
  let srcXf : ℚ := offX + x * scaleX
  let srcX0 : ℕ := srcIdx0 srcXf srcW
  let srcX1 : ℕ := srcIdx1 srcXf srcW
  let xFrac : ℚ := srcXf - srcX0
  bilinear
    ((src ((srcY0 * srcW + srcX0) * 4 + 3) : ℕ) : ℚ)
    ((src ((srcY0 * srcW + srcX1) * 4 + 3) : ℕ) : ℚ)
    ((src ((srcY1 * srcW + srcX0) * 4 + 3) : ℕ) : ℚ)
    ((src ((srcY1 * srcW + srcX1) * 4 + 3) : ℕ) : ℚ) xFrac yFrac

/-! ### Concrete objects used by witnesses and counterexamples -/

/-- A concrete gamma table assignment used to evaluate the pipeline on
concrete inputs (the claims settled here do not depend on the tables'
numeric content). -/
def exLUT : GammaLUT := ⟨fun n => (n : ℚ), clampByte⟩

/-- A concrete stand-in for the external blur collaborator: the identity
on the input buffer. -/
def blurId : Buf → ℕ → ℕ → ℤ → Buf := fun b _ _ _ => b

/-- A concrete stand-in for the external blur collaborator that records
the radius it was invoked with into every byte of its output. -/
def blurProbe : Buf → ℕ → ℕ → ℤ → Buf := fun _ _ _ r => fun _ => r.toNat

/-- The all-zero byte buffer. -/
def zeroBuf : Buf := fun _ => 0

/-- A 2×1 RGBA test image whose left pixel has alpha 0 and whose right
pixel has alpha 255. -/
def alphaRampBuf : Buf := fun i => if i = 7 then 255 else 0

/-! ### Helper lemmas -/

theorem validationFails_iff_violates (src? dst? : Option Buf)
    (srcW srcH cropX cropY cropW cropH : ℕ) (radius : ℤ) (scale : ℚ)
    (dir : ProgressiveDirection) (fadeStart fadeEnd : ℚ) :
    validationFails src? dst? srcW srcH cropX cropY cropW cropH radius scale
        dir fadeStart fadeEnd = true ↔
      violatesValidation src? dst? srcW srcH cropX cropY cropW cropH radius scale
        dir fadeStart fadeEnd := by
  simp only [validationFails, violatesValidation, Bool.or_eq_true, Bool.and_eq_true,
    decide_eq_true_eq, Option.isNone_iff_eq_none, or_assoc]

theorem backgroundBlur_eq_of_fails (lut : GammaLUT) (blurFn : Buf → ℕ → ℕ → ℤ → Buf)
    (scratch0 : Buf) (src? dst? : Option Buf)
    (srcW srcH cropX cropY cropW cropH : ℕ) (radius : ℤ) (scale : ℚ)
    (dir : ProgressiveDirection) (fadeStart fadeEnd : ℚ)
    (h : validationFails src? dst? srcW srcH cropX cropY cropW cropH radius scale
      dir fadeStart fadeEnd = true) :
    backgroundBlur lut blurFn scratch0 src? dst? srcW srcH cropX cropY cropW cropH
      radius scale dir fadeStart fadeEnd = (false, dst?) := by
  unfold backgroundBlur
  rw [if_pos h]

theorem backgroundBlur_eq_of_ok (lut : GammaLUT) (blurFn : Buf → ℕ → ℕ → ℤ → Buf)
    (scratch0 : Buf) (src dst : Buf)
    (srcW srcH cropX cropY cropW cropH : ℕ) (radius : ℤ) (scale : ℚ)
    (dir : ProgressiveDirection) (fadeStart fadeEnd : ℚ)
    (h : validationFails (some src) (some dst) srcW srcH cropX cropY cropW cropH
      radius scale dir fadeStart fadeEnd = false) :
    backgroundBlur lut blurFn scratch0 (some src) (some dst) srcW srcH cropX cropY
        cropW cropH radius scale dir fadeStart fadeEnd =
      (true, some (applyProgressiveMask
        (scaleUp lut
          (blurFn
            (cropAndScaleDown lut src srcW srcH cropX cropY cropW cropH scratch0
              (scaledDim cropW scale) (scaledDim cropH scale))
            (scaledDim cropW scale) (scaledDim cropH scale)
            (scaledRadius radius scale))
          (scaledDim cropW scale) (scaledDim cropH scale) dst cropW cropH)
        cropW cropH dir fadeStart fadeEnd)) := by
  unfold backgroundBlur
  rw [if_neg (by rw [h]; exact Bool.false_ne_true)]

/-! ### Claim C1 -/

/-- C1: `backgroundBlur` returns `false` exactly when a validation condition
is violated (null buffer, crop region outside the source, zero crop
dimension, radius outside [1,25], scale outside (0,1], fade value outside
[0,1], or a failed direction-specific ordering constraint); on every
failing call the destination buffer is left unchanged, and every other
call returns `true`. -/
theorem backgroundBlur_failure_iff (lut : GammaLUT) (blurFn : Buf → ℕ → ℕ → ℤ → Buf)
    (scratch0 : Buf) (src? dst? : Option Buf)
    (srcW srcH cropX cropY cropW cropH : ℕ) (radius : ℤ) (scale : ℚ)
    (dir : ProgressiveDirection) (fadeStart fadeEnd : ℚ) :
    ((backgroundBlur lut blurFn scratch0 src? dst? srcW srcH cropX cropY cropW cropH
        radius scale dir fadeStart fadeEnd).1 = false ↔
      violatesValidation src? dst? srcW srcH cropX cropY cropW cropH radius scale
        dir fadeStart fadeEnd) ∧
    ((backgroundBlur lut blurFn scratch0 src? dst? srcW srcH cropX cropY cropW cropH
        radius scale dir fadeStart fadeEnd).1 = false →
      (backgroundBlur lut blurFn scratch0 src? dst? srcW srcH cropX cropY cropW cropH
        radius scale dir fadeStart fadeEnd).2 = dst?) := by
  by_cases h : validationFails src? dst? srcW srcH cropX cropY cropW cropH radius scale
      dir fadeStart fadeEnd = true
  · have hv := (validationFails_iff_violates src? dst? srcW srcH cropX cropY cropW cropH
      radius scale dir fadeStart fadeEnd).mp h
    rw [backgroundBlur_eq_of_fails lut blurFn scratch0 src? dst? srcW srcH cropX cropY
      cropW cropH radius scale dir fadeStart fadeEnd h]
    exact ⟨⟨fun _ => hv, fun _ => rfl⟩, fun _ => rfl⟩
  · have hv : ¬ violatesValidation src? dst? srcW srcH cropX cropY cropW cropH radius
        scale dir fadeStart fadeEnd :=
      fun hx => h ((validationFails_iff_violates src? dst? srcW srcH cropX cropY cropW
        cropH radius scale dir fadeStart fadeEnd).mpr hx)
    simp only [Bool.not_eq_true] at h
    rcases src? with _ | src
    · exact absurd (Or.inl rfl) hv
    rcases dst? with _ | dst
    · exact absurd (Or.inr (Or.inl rfl)) hv
    rw [backgroundBlur_eq_of_ok lut blurFn scratch0 src dst srcW srcH cropX cropY
      cropW cropH radius scale dir fadeStart fadeEnd h]
    exact ⟨⟨fun hfalse => absurd hfalse (by simp), fun hviol => absurd hviol hv⟩,
      fun hfalse => absurd hfalse (by simp)⟩

/-! ### Claim C3 -/

/-- C3: when the progressive mask is applied (direction ≠ NONE), every
channel byte of every pixel of row `y` is replaced by
`trunc(byte * a + 0.5)` where `a` is the row's mask scalar — the same
scalar for all four channels. -/
theorem applyProgressiveMask_pixel (buffer : Buf) (width height : ℕ)
    (direction : ProgressiveDirection) (fadeStart fadeEnd : ℚ) (y x c : ℕ)
    (hdir : direction ≠ NONE) (hy : y < height) (hx : x < width) (hc : c < 4) :
    applyProgressiveMask buffer width height direction fadeStart fadeEnd
        ((y * width + x) * 4 + c) =
      (truncQ (((buffer ((y * width + x) * 4 + c) : ℕ) : ℚ) *
        maskAlpha direction fadeStart fadeEnd height y + 1/2)).toNat := by
  have hlt : (y * width + x) * 4 + c < height * width * 4 := by
    have h1 : y * width + x < height * width := by
      calc y * width + x < y * width + width := by omega
        _ = (y + 1) * width := by ring
        _ ≤ height * width := Nat.mul_le_mul_right _ (by omega)
    calc (y * width + x) * 4 + c < (y * width + x) * 4 + 4 := by omega
      _ = (y * width + x + 1) * 4 := by ring
      _ ≤ height * width * 4 := Nat.mul_le_mul_right _ (by omega)
  have hdiv : ((y * width + x) * 4 + c) / (width * 4) = y := by
    have hrw : (y * width + x) * 4 + c = (x * 4 + c) + (width * 4) * y := by ring
    rw [hrw, Nat.add_mul_div_left _ _ (by omega), Nat.div_eq_of_lt (by omega)]
    omega
  simp only [applyProgressiveMask, if_neg hdir]
  rw [if_pos hlt, hdiv]

/-- Witness for C3 at a concrete input. -/
theorem applyProgressiveMask_pixel_witness :
    TOP_TO_BOTTOM ≠ NONE ∧ (0:ℕ) < 2 ∧ (0:ℕ) < 1 ∧ (3:ℕ) < 4 ∧
    applyProgressiveMask zeroBuf 1 2 TOP_TO_BOTTOM 0 1 ((0 * 1 + 0) * 4 + 3) =
      (truncQ (((zeroBuf ((0 * 1 + 0) * 4 + 3) : ℕ) : ℚ) *
        maskAlpha TOP_TO_BOTTOM 0 1 2 0 + 1/2)).toNat :=
  ⟨by decide, by decide, by decide, by decide,
   applyProgressiveMask_pixel zeroBuf 1 2 TOP_TO_BOTTOM 0 1 0 0 3
     (by decide) (by decide) (by decide) (by decide)⟩

/-! ### Claim C4 -/

/-- C4: for every row of a masked buffer, the mask scalar computed by the
code equals the spec's piecewise fade profile evaluated at
`normalizedY = y / max(height-1, 1)`, with zero-width ramps defaulting to
full opacity and the result clamped to [0,1]. -/
theorem maskAlpha_eq_specMaskAlpha (direction : ProgressiveDirection)
    (fadeStart fadeEnd : ℚ) (height y : ℕ) (hdir : direction ≠ NONE) :
    maskAlpha direction fadeStart fadeEnd height y =
      specMaskAlpha direction fadeStart fadeEnd height y := by
  have hden : (if height > 1 then ((height - 1 : ℕ) : ℚ) else 1) =
      ((max (height - 1) 1 : ℕ) : ℚ) := by
    rcases Nat.lt_or_ge 1 height with h1 | h1
    · rw [if_pos h1, Nat.max_eq_left (by omega)]
    · rw [if_neg (by omega)]
      have h0 : height - 1 = 0 := by omega
      rw [h0]
      norm_num
  cases direction with
  | NONE => exact absurd rfl hdir
  | TOP_TO_BOTTOM =>
      simp only [maskAlpha, specMaskAlpha, hden]
      by_cases h1 : (y : ℚ) / ((max (height - 1) 1 : ℕ) : ℚ) ≤ fadeStart
      · rw [if_pos h1, if_pos h1]
      · rw [if_neg h1, if_neg h1]
        by_cases h2 : (y : ℚ) / ((max (height - 1) 1 : ℕ) : ℚ) ≥ fadeEnd
        · rw [if_pos h2, if_pos h2]
        · rw [if_neg h2, if_neg h2, if_pos (by push_neg at h1 h2; linarith)]
  | BOTTOM_TO_TOP =>
      simp only [maskAlpha, specMaskAlpha, hden]
      by_cases h1 : (y : ℚ) / ((max (height - 1) 1 : ℕ) : ℚ) ≥ fadeStart
      · rw [if_pos h1, if_pos h1]
      · rw [if_neg h1, if_neg h1]
        by_cases h2 : (y : ℚ) / ((max (height - 1) 1 : ℕ) : ℚ) ≤ fadeEnd
        · rw [if_pos h2, if_pos h2]
        · rw [if_neg h2, if_neg h2, if_pos (by push_neg at h1 h2; linarith)]
  | EDGES =>
      simp only [maskAlpha, specMaskAlpha, hden]
      by_cases h1 : (y : ℚ) / ((max (height - 1) 1 : ℕ) : ℚ) ≤ fadeStart
      · rw [if_pos h1, if_pos h1]
      · rw [if_neg h1, if_neg h1]
        by_cases h2 : (y : ℚ) / ((max (height - 1) 1 : ℕ) : ℚ) ≥ fadeEnd
        · rw [if_pos h2, if_pos h2]
          by_cases h3 : fadeEnd < 1
          · rw [if_pos h3, if_pos h3]
            have hne : (1 : ℚ) - fadeEnd ≠ 0 := by linarith
            have hq : (1 - (y : ℚ) / ((max (height - 1) 1 : ℕ) : ℚ)) / (1 - fadeEnd) =
                1 - ((y : ℚ) / ((max (height - 1) 1 : ℕ) : ℚ) - fadeEnd) / (1 - fadeEnd) := by
              field_simp
              ring
            rw [hq]
          · rw [if_neg h3, if_neg h3]
        · rw [if_neg h2, if_neg h2]

/-- Witness for C4 at a concrete input. -/
theorem maskAlpha_eq_specMaskAlpha_witness :
    TOP_TO_BOTTOM ≠ NONE ∧
    maskAlpha TOP_TO_BOTTOM 0 1 3 1 = specMaskAlpha TOP_TO_BOTTOM 0 1 3 1 :=
  ⟨by decide, maskAlpha_eq_specMaskAlpha TOP_TO_BOTTOM 0 1 3 1 (by decide)⟩

/-! ### Claim C2 -/

/-- C2: every call that passes validation produces `dst` by the sequential
composition — crop the region from `src` and downscale it to the scaled
dimensions, blur at the effective radius over 4 channels, upscale back to
`(cropWidth, cropHeight)` directly into `dst`, and only then apply the
progressive mask in place at full resolution, strictly after the final
upscale. -/
theorem backgroundBlur_pipeline_order (lut : GammaLUT)
    (blurFn : Buf → ℕ → ℕ → ℤ → Buf) (scratch0 : Buf) (src dst : Buf)
    (srcW srcH cropX cropY cropW cropH : ℕ) (radius : ℤ) (scale : ℚ)
    (dir : ProgressiveDirection) (fadeStart fadeEnd : ℚ)
    (h : validationFails (some src) (some dst) srcW srcH cropX cropY cropW cropH
      radius scale dir fadeStart fadeEnd = false) :
    backgroundBlur lut blurFn scratch0 (some src) (some dst) srcW srcH cropX cropY
        cropW cropH radius scale dir fadeStart fadeEnd =
      (true, some (applyProgressiveMask
        (scaleUp lut
          (blurFn
            (cropAndScaleDown lut src srcW srcH cropX cropY cropW cropH scratch0
              (scaledDim cropW scale) (scaledDim cropH scale))
            (scaledDim cropW scale) (scaledDim cropH scale)
            (scaledRadius radius scale))
          (scaledDim cropW scale) (scaledDim cropH scale) dst cropW cropH)
        cropW cropH dir fadeStart fadeEnd)) :=
  backgroundBlur_eq_of_ok lut blurFn scratch0 src dst srcW srcH cropX cropY cropW
    cropH radius scale dir fadeStart fadeEnd h

/-- Witness for C2 at a concrete input. -/
theorem backgroundBlur_pipeline_order_witness :
    validationFails (some zeroBuf) (some zeroBuf) 1 1 0 0 1 1 1 1 NONE 0 1 = false ∧
    backgroundBlur exLUT blurId zeroBuf (some zeroBuf) (some zeroBuf) 1 1 0 0 1 1
        1 1 NONE 0 1 =
      (true, some (applyProgressiveMask
        (scaleUp exLUT
          (blurId
            (cropAndScaleDown exLUT zeroBuf 1 1 0 0 1 1 zeroBuf
              (scaledDim 1 1) (scaledDim 1 1))
            (scaledDim 1 1) (scaledDim 1 1) (scaledRadius 1 1))
          (scaledDim 1 1) (scaledDim 1 1) zeroBuf 1 1)
        1 1 NONE 0 1)) :=
  ⟨by decide,
   backgroundBlur_pipeline_order exLUT blurId zeroBuf zeroBuf zeroBuf 1 1 0 0 1 1
     1 1 NONE 0 1 (by decide)⟩

/-! ### Claim C5 -/

/-- C5 counterexample: the claim says the scaled working dimensions use
round-to-nearest.  At `cropWidth = 7`, `scale = 1/4` (a call that passes
validation) the code truncates `7 * 1/4 = 1.75` to 1, while the claim's
`max(1, round(7 * 1/4))` gives 2. -/
theorem scaledDim_round_cex :
    validationFails (some zeroBuf) (some zeroBuf) 8 1 0 0 7 1 1 (1/4) NONE 0 1
        = false ∧
    scaledDim 7 (1/4) = 1 ∧ specScaledDim 7 (1/4) = 2 := by
  refine ⟨?_, ?_, ?_⟩
  · simp only [validationFails, Bool.or_eq_false_iff, Bool.and_eq_false_iff,
      decide_eq_false_iff_not, Option.isNone_some]
    norm_num
    decide
  · have h : (⌊((7:ℕ) : ℚ) * (1/4)⌋ : ℤ) = 1 := by norm_num
    rw [scaledDim, truncQ, if_pos (by norm_num), h]
    decide
  · have h : round (((7:ℕ) : ℚ) * (1/4)) = 2 := by
      rw [round_eq]
      norm_num
    rw [specScaledDim, h]
    decide

/-- C5 amended: the scaled working dimensions equal
`max(1, trunc(cropWidth × scale))` and `max(1, trunc(cropHeight × scale))`
— truncation toward zero, not round-to-nearest — and after
`ensureCapacity` both scratch buffers hold at least
`scaledW × scaledH × 4` bytes. -/
theorem scaledDim_trunc_and_capacity (cropW cropH : ℕ) (scale : ℚ)
    (b : BackgroundBlurBuffers) :
    scaledDim cropW scale = max (truncQ ((cropW : ℚ) * scale)).toNat 1 ∧
    scaledDim cropH scale = max (truncQ ((cropH : ℚ) * scale)).toNat 1 ∧
    scaledDim cropW scale * scaledDim cropH scale * 4 ≤
      (ensureCapacity b (scaledDim cropW scale * scaledDim cropH scale * 4)
        (scaledDim cropW scale * scaledDim cropH scale * 4)).scaledInput ∧
    scaledDim cropW scale * scaledDim cropH scale * 4 ≤
      (ensureCapacity b (scaledDim cropW scale * scaledDim cropH scale * 4)
        (scaledDim cropW scale * scaledDim cropH scale * 4)).blurOutput := by
  refine ⟨rfl, rfl, ?_, ?_⟩ <;>
    · simp only [ensureCapacity]
      split <;> omega

/-! ### Claim C6 -/

/-- C6 counterexample: the claim says the blur step is invoked with
`clamp(round(radius × scale), 1, 25)`.  At `radius = 7`, `scale = 1/4`
(a call that passes validation) the code truncates `7 * 1/4 = 1.75` and
invokes the blur with radius 1, while the claim's formula gives 2; a
radius-recording blur collaborator run through `backgroundBlur` observes
the invoked radius 1. -/
theorem scaledRadius_round_cex :
    validationFails (some zeroBuf) (some zeroBuf) 8 1 0 0 7 1 7 (1/4) NONE 0 1
        = false ∧
    scaledRadius 7 (1/4) = 1 ∧ specEffectiveRadius 7 (1/4) = 2 ∧
    Option.elim
      (backgroundBlur exLUT blurProbe zeroBuf (some zeroBuf) (some zeroBuf)
        8 1 0 0 7 1 7 (1/4) NONE 0 1).2 0 (fun d => d 3) = 1 := by
  have hval : validationFails (some zeroBuf) (some zeroBuf) 8 1 0 0 7 1 7 (1/4)
      NONE 0 1 = false := by
    simp only [validationFails, Bool.or_eq_false_iff, Bool.and_eq_false_iff,
      decide_eq_false_iff_not, Option.isNone_some]
    norm_num
    decide
  have hsr : scaledRadius 7 (1/4) = 1 := by
    have h : (⌊((7:ℤ) : ℚ) * (1/4)⌋ : ℤ) = 1 := by norm_num
    rw [scaledRadius, truncQ, if_pos (by norm_num), h]
    decide
  have hsdW : scaledDim 7 (1/4) = 1 := by
    have h : (⌊((7:ℕ) : ℚ) * (1/4)⌋ : ℤ) = 1 := by norm_num
    rw [scaledDim, truncQ, if_pos (by norm_num), h]
    decide
  have hsdH : scaledDim 1 (1/4) = 1 := by
    have h : (⌊((1:ℕ) : ℚ) * (1/4)⌋ : ℤ) = 0 := by norm_num
    rw [scaledDim, truncQ, if_pos (by norm_num), h]
    decide
  refine ⟨hval, hsr, ?_, ?_⟩
  · have h : round (((7:ℤ) : ℚ) * (1/4)) = 2 := by
      rw [round_eq]
      norm_num
    rw [specEffectiveRadius, h]
    decide
  · rw [backgroundBlur_eq_of_ok exLUT blurProbe zeroBuf zeroBuf zeroBuf 8 1 0 0 7 1
      7 (1/4) NONE 0 1 hval]
    rw [hsdW, hsdH, hsr]
    simp only [Option.elim_some, applyProgressiveMask, if_pos]
    simp [scaleUp, resampleByte, srcIdx0, srcIdx1, truncQ, bilinear, clampByte,
      blurProbe]

/-- C6 amended: the blur step is invoked with the effective radius
`clamp(trunc(radius × scale), 1, 25)` — truncation toward zero, not
round-to-nearest — which always lies in [1, 25]. -/
theorem scaledRadius_trunc (radius : ℤ) (scale : ℚ)
    (h1 : 1 ≤ radius) (h3 : 0 < scale) :
    scaledRadius radius scale = min (max ⌊(radius : ℚ) * scale⌋ 1) 25 ∧
    1 ≤ scaledRadius radius scale ∧ scaledRadius radius scale ≤ 25 := by
  have hr0 : (0 : ℚ) ≤ (radius : ℚ) := by
    have : (1 : ℚ) ≤ (radius : ℚ) := by exact_mod_cast h1
    linarith
  have hnn : (0 : ℚ) ≤ (radius : ℚ) * scale := mul_nonneg hr0 (le_of_lt h3)
  have heq : scaledRadius radius scale = min (max ⌊(radius : ℚ) * scale⌋ 1) 25 := by
    rw [scaledRadius, truncQ, if_pos hnn]
  refine ⟨heq, ?_, ?_⟩
  · rw [heq]
    exact le_min (le_max_right _ _) (by norm_num)
  · rw [heq]
    exact min_le_right _ _

/-- Witness for the C6 amended theorem at a concrete input. -/
theorem scaledRadius_trunc_witness :
    (1 : ℤ) ≤ 5 ∧ (0 : ℚ) < 1 ∧
    (scaledRadius 5 1 = min (max ⌊((5:ℤ) : ℚ) * 1⌋ 1) 25 ∧
      1 ≤ scaledRadius 5 1 ∧ scaledRadius 5 1 ≤ 25) :=
  ⟨by decide, by decide, scaledRadius_trunc 5 1 (by decide) (by decide)⟩

/-! ### Claim C7 -/

/-- C7 counterexample: the claim says the resampled alpha is rounded to the
nearest integer.  Upscaling a 2×1 image with alphas 0 and 255 to 4×1
samples the midpoint at destination pixel x = 1: the plain bilinear value
is 127.5, whose nearest integer is 128, but the code stores the truncated
127. -/
theorem scaleUp_alpha_round_cex :
    scaleUp exLUT alphaRampBuf 2 1 zeroBuf 4 1 7 = 127 ∧
    round (alphaSample alphaRampBuf 2 1 0 0 ((2 : ℚ) / 4) ((1 : ℚ) / 1) 1 0)
      = 128 := by
  constructor
  · simp [scaleUp, resampleByte, srcIdx0, srcIdx1, truncQ, bilinear, clampByte,
      alphaRampBuf]
    norm_num
    decide
  · have h : alphaSample alphaRampBuf 2 1 0 0 ((2 : ℚ) / 4) ((1 : ℚ) / 1) 1 0
        = 255 / 2 := by
      simp [alphaSample, srcIdx0, srcIdx1, truncQ, bilinear, alphaRampBuf]
      norm_num
    rw [h, round_eq]
    norm_num

/-- C7 amended: in both resampling operations the destination alpha byte is
the plain bilinear interpolation of the four neighbors' alpha values in
their encoded numeric space (no gamma transform — the result does not
involve the gamma tables), clamped to [0,255] and then truncated toward
zero (rather than rounded to the nearest integer). -/
theorem resample_alpha_plain (lut : GammaLUT) (src dst : Buf)
    (srcW srcH cropX cropY cropW cropH dstW dstH x y : ℕ)
    (hx : x < dstW) (hy : y < dstH) :
    cropAndScaleDown lut src srcW srcH cropX cropY cropW cropH dst dstW dstH
        ((y * dstW + x) * 4 + 3) =
      (truncQ (min (max (alphaSample src srcW srcH cropX cropY
        ((cropW : ℚ) / dstW) ((cropH : ℚ) / dstH) x y) 0) 255)).toNat ∧
    scaleUp lut src srcW srcH dst dstW dstH ((y * dstW + x) * 4 + 3) =
      (truncQ (min (max (alphaSample src srcW srcH 0 0
        ((srcW : ℚ) / dstW) ((srcH : ℚ) / dstH) x y) 0) 255)).toNat := by
  have hlt : (y * dstW + x) * 4 + 3 < dstH * dstW * 4 := by
    have h1 : y * dstW + x < dstH * dstW := by
      calc y * dstW + x < y * dstW + dstW := by omega
        _ = (y + 1) * dstW := by ring
        _ ≤ dstH * dstW := Nat.mul_le_mul_right _ (by omega)
    calc (y * dstW + x) * 4 + 3 < (y * dstW + x) * 4 + 4 := by omega
      _ = (y * dstW + x + 1) * 4 := by ring
      _ ≤ dstH * dstW * 4 := Nat.mul_le_mul_right _ (by omega)
  have hdiv : ((y * dstW + x) * 4 + 3) / (dstW * 4) = y := by
    have hrw : (y * dstW + x) * 4 + 3 = (x * 4 + 3) + (dstW * 4) * y := by ring
    rw [hrw, Nat.add_mul_div_left _ _ (by omega), Nat.div_eq_of_lt (by omega)]
    omega
  have hmod : (((y * dstW + x) * 4 + 3) / 4) % dstW = x := by
    have h4 : ((y * dstW + x) * 4 + 3) / 4 = y * dstW + x := by
      have hrw : (y * dstW + x) * 4 + 3 = 3 + 4 * (y * dstW + x) := by ring
      rw [hrw, Nat.add_mul_div_left 3 _ (by omega)]
      omega
    have hrw2 : y * dstW + x = x + dstW * y := by ring
    rw [h4, hrw2, Nat.add_mul_mod_self_left, Nat.mod_eq_of_lt hx]
  have hc : ((y * dstW + x) * 4 + 3) % 4 = 3 := by omega
  constructor
  · simp only [cropAndScaleDown]
    rw [if_pos hlt, hdiv, hmod, hc]
    simp only [resampleByte, alphaSample, clampByte, if_pos]
  · simp only [scaleUp]
    rw [if_pos hlt, hdiv, hmod, hc]
    simp only [resampleByte, alphaSample, clampByte, if_pos]

/-- Witness for the C7 amended theorem at a concrete input. -/
theorem resample_alpha_plain_witness :
    (0 : ℕ) < 1 ∧
    (cropAndScaleDown exLUT zeroBuf 1 1 0 0 1 1 zeroBuf 1 1 ((0 * 1 + 0) * 4 + 3) =
      (truncQ (min (max (alphaSample zeroBuf 1 1 0 0
        ((1 : ℚ) / 1) ((1 : ℚ) / 1) 0 0) 0) 255)).toNat ∧
    scaleUp exLUT zeroBuf 1 1 zeroBuf 1 1 ((0 * 1 + 0) * 4 + 3) =
      (truncQ (min (max (alphaSample zeroBuf 1 1 0 0
        ((1 : ℚ) / 1) ((1 : ℚ) / 1) 0 0) 0) 255)).toNat) :=
  ⟨by decide,
   resample_alpha_plain exLUT zeroBuf zeroBuf 1 1 0 0 1 1 1 1 0 0
     (by decide) (by decide)⟩

/-! ### Claim C8 -/

/-- C8: in both resampling operations the sampled neighbor indices are
clamped to the source's valid index range (so every read is in bounds),
and a continuous coordinate at or beyond the last valid index yields both
neighbors equal to the last valid index — replicate-edge behavior, no
wraparound — and interpolating the (then four equal) samples returns
exactly that last row/column's pixel value. -/
theorem srcIdx_clamped (f : ℚ) (limit : ℕ) (h0 : 0 ≤ f) (h1 : 1 ≤ limit) :
    srcIdx0 f limit < limit ∧ srcIdx1 f limit < limit ∧
    ((limit : ℚ) - 1 ≤ f →
      srcIdx0 f limit = limit - 1 ∧ srcIdx1 f limit = limit - 1) ∧
    (∀ p xf yf : ℚ, bilinear p p p p xf yf = p) := by
  have hl : limit - 1 < limit := by omega
  refine ⟨lt_of_le_of_lt (min_le_right _ _) hl,
    lt_of_le_of_lt (min_le_right _ _) hl, ?_, ?_⟩
  · intro hf
    have htr : truncQ f = ⌊f⌋ := if_pos h0
    have hfl : (limit : ℤ) - 1 ≤ ⌊f⌋ := by
      rw [Int.le_floor]
      push_cast
      linarith
    have h2 : limit - 1 ≤ (truncQ f).toNat := by
      rw [htr]
      omega
    have hs0 : srcIdx0 f limit = limit - 1 := min_eq_right h2
    refine ⟨hs0, ?_⟩
    rw [srcIdx1, hs0]
    exact min_eq_right (by omega)
  · intro p xf yf
    simp only [bilinear]
    ring

/-- Witness for C8 at a concrete input. -/
theorem srcIdx_clamped_witness :
    (0 : ℚ) ≤ 5 ∧ (1 : ℕ) ≤ 3 ∧
    (srcIdx0 5 3 < 3 ∧ srcIdx1 5 3 < 3 ∧
      ((3 : ℚ) - 1 ≤ 5 → srcIdx0 5 3 = 3 - 1 ∧ srcIdx1 5 3 = 3 - 1) ∧
      (∀ p xf yf : ℚ, bilinear p p p p xf yf = p)) :=
  ⟨by decide, by decide, srcIdx_clamped 5 3 (by decide) (by decide)⟩

/-! ### Claim C9 -/

/-- C9 counterexample: the fade range check `fadeStart, fadeEnd ∈ [0,1]`
applies even when direction = None, so two calls identical in all
arguments except the fade values can return different booleans: with
`fadeStart = 0` the call succeeds, with `fadeStart = 2` it fails
validation. -/
theorem backgroundBlur_none_fade_cex :
    (backgroundBlur exLUT blurId zeroBuf (some zeroBuf) (some zeroBuf)
      1 1 0 0 1 1 1 1 NONE 0 1).1 = true ∧
    (backgroundBlur exLUT blurId zeroBuf (some zeroBuf) (some zeroBuf)
      1 1 0 0 1 1 1 1 NONE 2 1).1 = false := by
  constructor <;> decide

/-- C9 amended: when direction = None and the fade values lie in [0,1],
`backgroundBlur` ignores them — two calls identical in all other arguments
return the same boolean and leave the destination buffer with identical
contents. -/
theorem backgroundBlur_none_ignores_fade (lut : GammaLUT)
    (blurFn : Buf → ℕ → ℕ → ℤ → Buf) (scratch0 : Buf) (src? dst? : Option Buf)
    (srcW srcH cropX cropY cropW cropH : ℕ) (radius : ℤ) (scale : ℚ)
    (fs1 fe1 fs2 fe2 : ℚ)
    (hfs1 : 0 ≤ fs1) (hfs1' : fs1 ≤ 1) (hfe1 : 0 ≤ fe1) (hfe1' : fe1 ≤ 1)
    (hfs2 : 0 ≤ fs2) (hfs2' : fs2 ≤ 1) (hfe2 : 0 ≤ fe2) (hfe2' : fe2 ≤ 1) :
    backgroundBlur lut blurFn scratch0 src? dst? srcW srcH cropX cropY cropW cropH
      radius scale NONE fs1 fe1 =
    backgroundBlur lut blurFn scratch0 src? dst? srcW srcH cropX cropY cropW cropH
      radius scale NONE fs2 fe2 := by
  have hd1 : decide ((NONE : ProgressiveDirection) = TOP_TO_BOTTOM) = false := by
    decide
  have hd2 : decide ((NONE : ProgressiveDirection) = BOTTOM_TO_TOP) = false := by
    decide
  have hd3 : decide ((NONE : ProgressiveDirection) = EDGES) = false := by decide
  have hval : validationFails src? dst? srcW srcH cropX cropY cropW cropH radius
      scale NONE fs1 fe1 =
      validationFails src? dst? srcW srcH cropX cropY cropW cropH radius scale
        NONE fs2 fe2 := by
    simp only [validationFails, hd1, hd2, hd3, Bool.false_and,
      decide_eq_false (not_lt.mpr hfs1), decide_eq_false (not_lt.mpr hfs1'),
      decide_eq_false (not_lt.mpr hfe1), decide_eq_false (not_lt.mpr hfe1'),
      decide_eq_false (not_lt.mpr hfs2), decide_eq_false (not_lt.mpr hfs2'),
      decide_eq_false (not_lt.mpr hfe2), decide_eq_false (not_lt.mpr hfe2')]
  by_cases hb : validationFails src? dst? srcW srcH cropX cropY cropW cropH radius
      scale NONE fs1 fe1 = true
  · rw [backgroundBlur_eq_of_fails lut blurFn scratch0 src? dst? srcW srcH cropX
      cropY cropW cropH radius scale NONE fs1 fe1 hb,
      backgroundBlur_eq_of_fails lut blurFn scratch0 src? dst? srcW srcH cropX
      cropY cropW cropH radius scale NONE fs2 fe2 (hval.symm.trans hb)]
  · simp only [Bool.not_eq_true] at hb
    rcases src? with _ | src
    · simp [validationFails] at hb
    rcases dst? with _ | dst
    · simp [validationFails] at hb
    rw [backgroundBlur_eq_of_ok lut blurFn scratch0 src dst srcW srcH cropX cropY
      cropW cropH radius scale NONE fs1 fe1 hb,
      backgroundBlur_eq_of_ok lut blurFn scratch0 src dst srcW srcH cropX cropY
      cropW cropH radius scale NONE fs2 fe2 (hval.symm.trans hb)]
    simp only [applyProgressiveMask, if_pos]

/-- Witness for the C9 amended theorem at a concrete input. -/
theorem backgroundBlur_none_ignores_fade_witness :
    (0 : ℚ) ≤ 0 ∧ (0 : ℚ) ≤ 1 ∧ (0 : ℚ) ≤ 1 ∧ (1 : ℚ) ≤ 1 ∧
    backgroundBlur exLUT blurId zeroBuf (some zeroBuf) (some zeroBuf)
      1 1 0 0 1 1 1 1 NONE 0 0 =
    backgroundBlur exLUT blurId zeroBuf (some zeroBuf) (some zeroBuf)
      1 1 0 0 1 1 1 1 NONE 1 1 :=
  ⟨by decide, by decide, by decide, by decide,
   backgroundBlur_none_ignores_fade exLUT blurId zeroBuf (some zeroBuf)
     (some zeroBuf) 1 1 0 0 1 1 1 1 0 0 1 1
     (by decide) (by decide) (by decide) (by decide)
     (by decide) (by decide) (by decide) (by decide)⟩

/-! ### Claim C10 -/

theorem bilinear_subst (a b c d a' b' c' d' xf yf : ℚ)
    (ha : a = a') (hb : xf = 0 ∨ b = b') (hc : yf = 0 ∨ c = c')
    (hd : xf = 0 ∨ yf = 0 ∨ d = d') :
    bilinear a b c d xf yf = bilinear a' b' c' d' xf yf := by
  subst ha
  rcases hb with hb | hb
  · rcases hc with hc | hc
    · subst hb
      subst hc
      simp only [bilinear]
      ring
    · subst hb
      subst hc
      simp only [bilinear]
      ring
  · subst hb
    rcases hc with hc | hc
    · subst hc
      simp only [bilinear]
      ring
    · subst hc
      rcases hd with hd | hd | hd
      · subst hd
        simp only [bilinear]
        ring
      · subst hd
        simp only [bilinear]
        ring
      · subst hd
        simp only [bilinear]

theorem resample_axis (off extent limit pos dstExtent : ℕ)
    (hpos : pos < dstExtent) (hdc : dstExtent ≤ extent)
    (hlim : off + extent ≤ limit) :
    (off ≤ srcIdx0 ((off : ℚ) + (pos : ℚ) * ((extent : ℚ) / (dstExtent : ℚ))) limit ∧
      srcIdx0 ((off : ℚ) + (pos : ℚ) * ((extent : ℚ) / (dstExtent : ℚ))) limit
        < off + extent) ∧
    ((off ≤ srcIdx1 ((off : ℚ) + (pos : ℚ) * ((extent : ℚ) / (dstExtent : ℚ))) limit ∧
      srcIdx1 ((off : ℚ) + (pos : ℚ) * ((extent : ℚ) / (dstExtent : ℚ))) limit
        < off + extent) ∨
      (off : ℚ) + (pos : ℚ) * ((extent : ℚ) / (dstExtent : ℚ)) -
        ((srcIdx0 ((off : ℚ) + (pos : ℚ) * ((extent : ℚ) / (dstExtent : ℚ))) limit
          : ℕ) : ℚ) = 0) := by
  set f : ℚ := (off : ℚ) + (pos : ℚ) * ((extent : ℚ) / (dstExtent : ℚ)) with hf
  have hd0 : 0 < dstExtent := by omega
  have hdQ : (0 : ℚ) < (dstExtent : ℚ) := by exact_mod_cast hd0
  have he1 : 1 ≤ extent := by omega
  have hr1 : (1 : ℚ) ≤ (extent : ℚ) / (dstExtent : ℚ) :=
    (one_le_div hdQ).mpr (by exact_mod_cast hdc)
  have hr0 : (0 : ℚ) ≤ (extent : ℚ) / (dstExtent : ℚ) := le_trans zero_le_one hr1
  have hf0 : (off : ℚ) ≤ f := by
    rw [hf]
    have := mul_nonneg (Nat.cast_nonneg (α := ℚ) pos) hr0
    linarith
  have hposQ : (pos : ℚ) + 1 ≤ (dstExtent : ℚ) := by
    have hp1 : pos + 1 ≤ dstExtent := hpos
    exact_mod_cast hp1
  have hfub : f ≤ (off : ℚ) + (extent : ℚ) - 1 := by
    rw [hf]
    have h1 : (pos : ℚ) * ((extent : ℚ) / (dstExtent : ℚ)) ≤
        ((dstExtent : ℚ) - 1) * ((extent : ℚ) / (dstExtent : ℚ)) :=
      mul_le_mul_of_nonneg_right (by linarith) hr0
    have h2 : ((dstExtent : ℚ) - 1) * ((extent : ℚ) / (dstExtent : ℚ)) =
        (extent : ℚ) - (extent : ℚ) / (dstExtent : ℚ) := by
      field_simp
      ring
    linarith
  have hfnn : (0 : ℚ) ≤ f := le_trans (Nat.cast_nonneg off) hf0
  have htr : truncQ f = ⌊f⌋ := if_pos hfnn
  have hlow : (off : ℤ) ≤ ⌊f⌋ := Int.le_floor.mpr (by push_cast; exact hf0)
  have hup : ⌊f⌋ ≤ (off : ℤ) + (extent : ℤ) - 1 := by
    have h3 : ⌊f⌋ ≤ ⌊(((off : ℤ) + (extent : ℤ) - 1 : ℤ) : ℚ)⌋ :=
      Int.floor_le_floor (by push_cast; linarith)
    simpa using h3
  have hs0 : srcIdx0 f limit = ⌊f⌋.toNat := by
    rw [srcIdx0, htr]
    exact min_eq_left (by omega)
  have hb0 : off ≤ srcIdx0 f limit ∧ srcIdx0 f limit < off + extent := by
    rw [hs0]
    omega
  refine ⟨hb0, ?_⟩
  by_cases hcase : srcIdx0 f limit + 1 < off + extent
  · left
    rw [srcIdx1]
    omega
  · right
    have hs0' : srcIdx0 f limit = off + extent - 1 := by omega
    have hfloor_eq : ⌊f⌋ = (off : ℤ) + (extent : ℤ) - 1 := by
      rw [hs0] at hs0'
      omega
    have hfle : (off : ℚ) + (extent : ℚ) - 1 ≤ f := by
      have h4 := Int.floor_le f
      rw [hfloor_eq] at h4
      push_cast at h4
      linarith
    have hcast2 : (((off + extent - 1 : ℕ)) : ℚ) = (off : ℚ) + (extent : ℚ) - 1 := by
      rw [Nat.cast_sub (by omega)]
      push_cast
      ring
    rw [hs0', hcast2]
    linarith

theorem resampleByte_agree (lut : GammaLUT) (src1 src2 : Buf)
    (srcW srcH offX offY extentX extentY dstX dstY x y c : ℕ)
    (hx : x < dstX) (hy : y < dstY) (hc : c < 4)
    (hXc : dstX ≤ extentX) (hYc : dstY ≤ extentY)
    (hsX : offX + extentX ≤ srcW) (hsY : offY + extentY ≤ srcH)
    (hagree : ∀ a b k : ℕ, offX ≤ a → a < offX + extentX → offY ≤ b →
      b < offY + extentY → k < 4 →
      src1 ((b * srcW + a) * 4 + k) = src2 ((b * srcW + a) * 4 + k)) :
    resampleByte lut src1 srcW srcH offX offY
        ((extentX : ℚ) / (dstX : ℚ)) ((extentY : ℚ) / (dstY : ℚ)) x y c =
      resampleByte lut src2 srcW srcH offX offY
        ((extentX : ℚ) / (dstX : ℚ)) ((extentY : ℚ) / (dstY : ℚ)) x y c := by
  obtain ⟨⟨hx0l, hx0u⟩, hx1⟩ := resample_axis offX extentX srcW x dstX hx hXc hsX
  obtain ⟨⟨hy0l, hy0u⟩, hy1⟩ := resample_axis offY extentY srcH y dstY hy hYc hsY
  simp only [resampleByte]
  by_cases hc3 : c = 3
  · rw [if_pos hc3, if_pos hc3]
    congr 1
    apply bilinear_subst
    · exact congrArg (fun n : ℕ => (n : ℚ)) (hagree _ _ 3 hx0l hx0u hy0l hy0u (by omega))
    · rcases hx1 with ⟨hx1l, hx1u⟩ | hx1
      · exact Or.inr (congrArg (fun n : ℕ => (n : ℚ))
          (hagree _ _ 3 hx1l hx1u hy0l hy0u (by omega)))
      · exact Or.inl hx1
    · rcases hy1 with ⟨hy1l, hy1u⟩ | hy1
      · exact Or.inr (congrArg (fun n : ℕ => (n : ℚ))
          (hagree _ _ 3 hx0l hx0u hy1l hy1u (by omega)))
      · exact Or.inl hy1
    · rcases hx1 with ⟨hx1l, hx1u⟩ | hx1
      · rcases hy1 with ⟨hy1l, hy1u⟩ | hy1
        · exact Or.inr (Or.inr (congrArg (fun n : ℕ => (n : ℚ))
            (hagree _ _ 3 hx1l hx1u hy1l hy1u (by omega))))
        · exact Or.inr (Or.inl hy1)
      · exact Or.inl hx1
  · rw [if_neg hc3, if_neg hc3]
    congr 1
    apply bilinear_subst
    · exact congrArg lut.srgbToLinear (hagree _ _ c hx0l hx0u hy0l hy0u hc)
    · rcases hx1 with ⟨hx1l, hx1u⟩ | hx1
      · exact Or.inr (congrArg lut.srgbToLinear
          (hagree _ _ c hx1l hx1u hy0l hy0u hc))
      · exact Or.inl hx1
    · rcases hy1 with ⟨hy1l, hy1u⟩ | hy1
      · exact Or.inr (congrArg lut.srgbToLinear
          (hagree _ _ c hx0l hx0u hy1l hy1u hc))
      · exact Or.inl hy1
    · rcases hx1 with ⟨hx1l, hx1u⟩ | hx1
      · rcases hy1 with ⟨hy1l, hy1u⟩ | hy1
        · exact Or.inr (Or.inr (congrArg lut.srgbToLinear
            (hagree _ _ c hx1l hx1u hy1l hy1u hc)))
        · exact Or.inr (Or.inl hy1)
      · exact Or.inl hx1

theorem cropAndScaleDown_agree (lut : GammaLUT) (src1 src2 scratch : Buf)
    (srcW srcH cropX cropY cropW cropH dstW dstH : ℕ)
    (hW : 0 < dstW) (hH : 0 < dstH) (hWc : dstW ≤ cropW) (hHc : dstH ≤ cropH)
    (hsW : cropX + cropW ≤ srcW) (hsH : cropY + cropH ≤ srcH)
    (hagree : ∀ a b k : ℕ, cropX ≤ a → a < cropX + cropW → cropY ≤ b →
      b < cropY + cropH → k < 4 →
      src1 ((b * srcW + a) * 4 + k) = src2 ((b * srcW + a) * 4 + k)) :
    ∀ i, cropAndScaleDown lut src1 srcW srcH cropX cropY cropW cropH scratch
        dstW dstH i =
      cropAndScaleDown lut src2 srcW srcH cropX cropY cropW cropH scratch
        dstW dstH i := by
  intro i
  simp only [cropAndScaleDown]
  by_cases hi : i < dstH * dstW * 4
  · rw [if_pos hi, if_pos hi]
    have hy : i / (dstW * 4) < dstH := by
      rw [mul_assoc] at hi
      exact (Nat.div_lt_iff_lt_mul (by omega)).mpr hi
    exact resampleByte_agree lut src1 src2 srcW srcH cropX cropY cropW cropH
      dstW dstH ((i / 4) % dstW) (i / (dstW * 4)) (i % 4)
      (Nat.mod_lt _ hW) hy (by omega) hWc hHc hsW hsH hagree
  · rw [if_neg hi, if_neg hi]

theorem scaledDim_bounds (d : ℕ) (scale : ℚ) (hd : 0 < d) (h0 : 0 < scale)
    (h1 : scale ≤ 1) :
    0 < scaledDim d scale ∧ scaledDim d scale ≤ d := by
  constructor
  · exact lt_of_lt_of_le one_pos (le_max_right _ _)
  · rw [scaledDim, truncQ,
      if_pos (mul_nonneg (Nat.cast_nonneg d) (le_of_lt h0))]
    have hfl : ⌊(d : ℚ) * scale⌋ ≤ (d : ℤ) := by
      calc ⌊(d : ℚ) * scale⌋ ≤ ⌊(d : ℚ)⌋ :=
          Int.floor_le_floor (mul_le_of_le_one_right (Nat.cast_nonneg d) h1)
        _ = (d : ℤ) := Int.floor_natCast d
    omega

/-- C10 counterexample (the claim's negation): there is no valid call and
pair of source buffers agreeing on the crop region whose downscale outputs
differ — even when the crop region does not touch the source's right or
bottom border and the buffers differ outside the region. -/
theorem cropAndScaleDown_outside_leak_cex :
    ¬ ∃ (lut : GammaLUT) (srcW srcH cropX cropY cropW cropH : ℕ) (scale : ℚ)
        (src1 src2 scratch : Buf) (i : ℕ),
      0 < cropW ∧ 0 < cropH ∧ 0 < scale ∧ scale ≤ 1 ∧
      cropX + cropW < srcW ∧ cropY + cropH < srcH ∧
      (∀ a b k : ℕ, cropX ≤ a → a < cropX + cropW → cropY ≤ b →
        b < cropY + cropH → k < 4 →
        src1 ((b * srcW + a) * 4 + k) = src2 ((b * srcW + a) * 4 + k)) ∧
      cropAndScaleDown lut src1 srcW srcH cropX cropY cropW cropH scratch
          (scaledDim cropW scale) (scaledDim cropH scale) i ≠
        cropAndScaleDown lut src2 srcW srcH cropX cropY cropW cropH scratch
          (scaledDim cropW scale) (scaledDim cropH scale) i := by
  rintro ⟨lut, srcW, srcH, cropX, cropY, cropW, cropH, scale, src1, src2, scratch,
    i, hcw, hch, h0, h1, hsW, hsH, hagree, hneq⟩
  obtain ⟨hW0, hWle⟩ := scaledDim_bounds cropW scale hcw h0 h1
  obtain ⟨hH0, hHle⟩ := scaledDim_bounds cropH scale hch h0 h1
  exact hneq (cropAndScaleDown_agree lut src1 src2 scratch srcW srcH cropX cropY
    cropW cropH (scaledDim cropW scale) (scaledDim cropH scale)
    hW0 hH0 hWle hHle (by omega) (by omega) hagree i)

/-- C10 amended: the downscale's bilinear neighbor indices are clamped only
to the full source bounds, not to the crop region, but an out-of-crop
neighbor is only ever sampled with bilinear weight exactly zero; hence for
every valid call, any two source buffers that agree on every pixel inside
the crop region produce identical downscale outputs. -/
theorem cropAndScaleDown_crop_determined (lut : GammaLUT)
    (src1 src2 scratch : Buf) (srcW srcH cropX cropY cropW cropH : ℕ)
    (scale : ℚ) (hcw : 0 < cropW) (hch : 0 < cropH)
    (h0 : 0 < scale) (h1 : scale ≤ 1)
    (hsW : cropX + cropW ≤ srcW) (hsH : cropY + cropH ≤ srcH)
    (hagree : ∀ a b k : ℕ, cropX ≤ a → a < cropX + cropW → cropY ≤ b →
      b < cropY + cropH → k < 4 →
      src1 ((b * srcW + a) * 4 + k) = src2 ((b * srcW + a) * 4 + k)) :
    ∀ i, cropAndScaleDown lut src1 srcW srcH cropX cropY cropW cropH scratch
        (scaledDim cropW scale) (scaledDim cropH scale) i =
      cropAndScaleDown lut src2 srcW srcH cropX cropY cropW cropH scratch
        (scaledDim cropW scale) (scaledDim cropH scale) i := by
  obtain ⟨hW0, hWle⟩ := scaledDim_bounds cropW scale hcw h0 h1
  obtain ⟨hH0, hHle⟩ := scaledDim_bounds cropH scale hch h0 h1
  exact cropAndScaleDown_agree lut src1 src2 scratch srcW srcH cropX cropY
    cropW cropH (scaledDim cropW scale) (scaledDim cropH scale)
    hW0 hH0 hWle hHle hsW hsH hagree

/-- A 2×1 source that agrees with `zeroBuf` on its first pixel and differs
from it on the second pixel. -/
def outsideBuf : Buf := fun i => if i ≤ 3 then 0 else 5

/-- Witness for the C10 amended theorem at a concrete input: a 2×1 source,
crop (0,0,1,1), scale 1; the two sources differ only at the pixel outside
the crop region and the downscale outputs coincide. -/
theorem cropAndScaleDown_crop_determined_witness :
    (0 : ℕ) < 1 ∧ (0 : ℚ) < 1 ∧ (1 : ℚ) ≤ 1 ∧ 0 + 1 ≤ 2 ∧
    (∀ a b k : ℕ, 0 ≤ a → a < 0 + 1 → 0 ≤ b → b < 0 + 1 → k < 4 →
      zeroBuf ((b * 2 + a) * 4 + k) = outsideBuf ((b * 2 + a) * 4 + k)) ∧
    (∀ i, cropAndScaleDown exLUT zeroBuf 2 1 0 0 1 1 zeroBuf
        (scaledDim 1 1) (scaledDim 1 1) i =
      cropAndScaleDown exLUT outsideBuf 2 1 0 0 1 1 zeroBuf
        (scaledDim 1 1) (scaledDim 1 1) i) := by
  have hagree : ∀ a b k : ℕ, 0 ≤ a → a < 0 + 1 → 0 ≤ b → b < 0 + 1 → k < 4 →
      zeroBuf ((b * 2 + a) * 4 + k) = outsideBuf ((b * 2 + a) * 4 + k) := by
    intro a b k _ ha _ hb hk
    have ha0 : a = 0 := by omega
    have hb0 : b = 0 := by omega
    subst ha0
    subst hb0
    simp only [zeroBuf, outsideBuf]
    rw [if_pos (by omega)]
  exact ⟨by decide, by decide, by decide, by decide, hagree,
    cropAndScaleDown_crop_determined exLUT zeroBuf outsideBuf zeroBuf 2 1 0 0 1 1
      1 (by decide) (by decide) (by decide) (by decide) (by decide) (by decide)
      hagree⟩

end CloudyBlur
